import Mathlib

/-!
Verification of the Decentra bot SDK's connection/event-dispatch core.

The definitions below are a shallow embedding of the Python sources
`sdk/client.py`, `sdk/commands.py` and `sdk/models.py`.  JSON values
(the wire payloads and everything a Python `dict.get` can return) are
modelled by `JValue`; Python dictionaries by insertion-ordered
association lists with unique-key update semantics.
-/

/-- A JSON-ish Python value: the payloads carried on the wire. -/
inductive JValue where
  | null : JValue
  | bool (b : Bool) : JValue
  | num (n : Int) : JValue
  | str (s : String) : JValue
  | arr (xs : List JValue) : JValue
  | obj (fields : List (String × JValue)) : JValue
deriving Repr

/-- A Python dict with string keys, as an insertion-ordered association list. -/
abbrev Dict := List (String × JValue)

/-- `d.get(k)` as an option: first binding for `k`, if any. -/
def lookupAssoc {α : Type} : List (String × α) → String → Option α
  | [], _ => none
  | (k, v) :: rest, key => if k = key then some v else lookupAssoc rest key

/-- Python `d.get(k, default)`. -/
def dictGetD (d : Dict) (k : String) (dflt : JValue) : JValue :=
  (lookupAssoc d k).getD dflt

/-- Python `d[k] = v`: replace the existing binding in place, else append. -/
def assocSet {α : Type} : List (String × α) → String → α → List (String × α)
  | [], k, v => [(k, v)]
  | (k', v') :: rest, k, v =>
      if k' = k then (k, v) :: rest else (k', v') :: assocSet rest k v

/-- `d[k] = v` on a `Dict`. -/
def dictSet (d : Dict) (k : String) (v : JValue) : Dict := assocSet d k v

/-- Python `v == s` for a string literal `s`: true only when `v` is that string. -/
def isStrEq (v : JValue) (s : String) : Bool :=
  match v with
  | .str t => t == s
  | _ => false

/-- Python truthiness of a value (`if x:`). -/
def JValue.truthy : JValue → Bool
  | .null => false
  | .bool b => b
  | .num n => n != 0
  | .str s => s != ""
  | .arr xs => !xs.isEmpty
  | .obj fs => !fs.isEmpty

mutual

/-- Python `repr` of a value (used by `str` on containers). -/
def pyRepr : JValue → String
  | .null => "None"
  | .bool true => "True"
  | .bool false => "False"
  | .num n => toString n
  | .str s => "'" ++ s ++ "'"
  | .arr xs => "[" ++ pyReprList xs ++ "]"
  | .obj fs => "\x7b" ++ pyReprFields fs ++ "\x7d"

/-- Comma-separated `repr`s of list elements. -/
def pyReprList : List JValue → String
  | [] => ""
  | [x] => pyRepr x
  | x :: y :: rest => pyRepr x ++ ", " ++ pyReprList (y :: rest)

/-- Comma-separated `repr`s of dict entries. -/
def pyReprFields : List (String × JValue) → String
  | [] => ""
  | [(k, v)] => "'" ++ k ++ "': " ++ pyRepr v
  | (k, v) :: e :: rest => "'" ++ k ++ "': " ++ pyRepr v ++ ", " ++ pyReprFields (e :: rest)

end

/-- Python `str(v)`, as used by `%s` log formatting and f-strings. -/
def JValue.pyStr : JValue → String
  | .str s => s
  | v => pyRepr v

/-- `pre` is a prefix of `s`, on character lists. -/
def charsHavePrefix : List Char → List Char → Bool
  | _, [] => true
  | [], _ :: _ => false
  | c :: cs, d :: ds => (c == d) && charsHavePrefix cs ds

/-- `sub` occurs as a contiguous run inside `s`, on character lists. -/
def charsContain : List Char → List Char → Bool
  | [], sub => sub.isEmpty
  | c :: cs, sub => charsHavePrefix (c :: cs) sub || charsContain cs sub

/-- Substring test: `sub` occurs somewhere inside `s`. -/
def strContains (s sub : String) : Bool :=
  charsContain s.toList sub.toList

/-!
Data model: `sdk/models.py` `Message` and `sdk/commands.py`
`SlashCommandContext`.  Python dataclass fields are dynamically typed, so
each field is a `JValue`; the dataclass defaults become the `dictGetD`
defaults used by `from_event`.
-/

/-- `Message` dataclass of `sdk/models.py`. -/
structure Message where
  id : JValue := .null
  username : JValue := .str ""
  content : JValue := .str ""
  timestamp : JValue := .str ""
  server_id : JValue := .str ""
  channel_id : JValue := .str ""
  context : JValue := .str ""
  context_id : JValue := .str ""
  is_bot : JValue := .bool false
  edited_at : JValue := .null
  reactions : JValue := .arr []
  attachments : JValue := .arr []
  mentions : JValue := .arr []
  reply_data : JValue := .null
  raw : Dict := []
deriving Repr

/-- `Message.from_event` of `sdk/models.py`: build a `Message` from an event
payload dict, with each `data.get(key, default)` as in the source. -/
def Message.from_event (data : Dict) : Message :=
  { id := dictGetD data "id" .null
    username := dictGetD data "username" (.str "")
    content := dictGetD data "content" (.str "")
    timestamp := dictGetD data "timestamp" (.str "")
    server_id := dictGetD data "server_id" (.str "")
    channel_id := dictGetD data "channel_id" (.str "")
    context := dictGetD data "context" (.str "")
    context_id := dictGetD data "context_id" (.str "")
    is_bot := dictGetD data "is_bot" (.bool false)
    edited_at := dictGetD data "edited_at" .null
    reactions := dictGetD data "reactions" (.arr [])
    attachments := dictGetD data "attachments" (.arr [])
    mentions := dictGetD data "mentions" (.arr [])
    reply_data := dictGetD data "reply_data" .null
    raw := data }

/-- `SlashCommandContext` dataclass of `sdk/commands.py`.  The `_bot`
back-reference is modelled by its truthiness only (`hasBot`): `reply` uses
it solely in the guard `if self._bot and ...`. -/
structure SlashCommandContext where
  command_name : JValue := .str ""
  arguments : JValue := .obj []
  user : JValue := .str ""
  server_id : JValue := .str ""
  channel_id : JValue := .str ""
  hasBot : Bool := false
deriving Repr

/-- The JSON body `send_message` posts to `/api/bot/messages`. -/
def sendMessagePayload (server_id channel_id : JValue) (content : String) : Dict :=
  [("server_id", server_id), ("channel_id", channel_id), ("content", .str content)]

/-- `SlashCommandContext.reply` of `sdk/commands.py`: issue a `send_message`
request only when `self._bot and self.server_id and self.channel_id` is
truthy, otherwise return `None` (modelled as `none`). -/
def SlashCommandContext.reply (ctx : SlashCommandContext) (content : String) :
    Option Dict :=
  if ctx.hasBot && ctx.server_id.truthy && ctx.channel_id.truthy then
    some (sendMessagePayload ctx.server_id ctx.channel_id content)
  else
    none

/-!
Handler tables of `DecentraBot.__init__` and the registration methods.
A handler is an abstract callback that either returns normally or raises
an exception carrying a message.
-/

/-- Outcome of awaiting a user callback: normal return or a raised exception. -/
inductive HandlerRes where
  | ok : HandlerRes
  | exn (msg : String) : HandlerRes
deriving Repr, DecidableEq

/-- Argument handed to an event handler: a structured `Message` for
`message_create`, the raw payload dict otherwise. -/
inductive HandlerArg where
  | msg (m : Message) : HandlerArg
  | raw (d : Dict) : HandlerArg
deriving Repr

/-- An event handler callback. -/
abbrev EventHandler := HandlerArg → HandlerRes

/-- A slash command handler callback. -/
abbrev SlashHandler := SlashCommandContext → HandlerRes

/-- The handler-table state of a `DecentraBot` instance:
`_event_handlers`, `_slash_handlers`, `_slash_definitions`. -/
structure BotState where
  eventHandlers : List (String × List EventHandler) := []
  slashHandlers : List (String × SlashHandler) := []
  slashDefinitions : List Dict := []

/-- `self._event_handlers.setdefault(event, []).append(handler)`. -/
def setdefaultAppend : List (String × List EventHandler) → String → EventHandler →
    List (String × List EventHandler)
  | [], e, h => [(e, [h])]
  | (k, hs) :: rest, e, h =>
      if k = e then (k, hs ++ [h]) :: rest else (k, hs) :: setdefaultAppend rest e h

/-- `DecentraBot.add_event_handler`. -/
def add_event_handler (st : BotState) (event : String) (h : EventHandler) : BotState :=
  { st with eventHandlers := setdefaultAppend st.eventHandlers event h }

/-- The definition dict built by the `slash_command` decorator
(parameters are given already converted by `to_dict`, as in the source's
list comprehension). -/
def slashCommandDef (name description : String) (parameters : List JValue) : Dict :=
  [("name", .str name), ("description", .str description), ("parameters", .arr parameters)]

/-- `DecentraBot.slash_command` registration effect:
`self._slash_handlers[name] = func` (dict assignment, i.e. overwrite) and
`self._slash_definitions.append(...)`. -/
def slash_command (st : BotState) (name description : String)
    (parameters : List JValue) (h : SlashHandler) : BotState :=
  { st with
    slashHandlers := assocSet st.slashHandlers name h
    slashDefinitions := st.slashDefinitions ++ [slashCommandDef name description parameters] }

/-- `DecentraBot.register_commands`: `none` when there are no definitions
(no request is made), otherwise the JSON body posted to `/api/bot/commands`. -/
def register_commands (st : BotState) : Option Dict :=
  if st.slashDefinitions.isEmpty then none
  else some [("commands", .arr (st.slashDefinitions.map JValue.obj))]

/-- The definitions in the registration payload whose `name` field is `n`. -/
def defsNamed (st : BotState) (n : String) : List Dict :=
  st.slashDefinitions.filter (fun d => isStrEq (dictGetD d "name" .null) n)

/-!
The event dispatcher: `DecentraBot._dispatch_event`, and the surrounding
receive loop `DecentraBot._ws_loop`.  Log entries mirror the `logger`
calls of `sdk/client.py`; invocations record each `await handler(...)`
performed, with the argument the handler received.
-/

/-- A log record emitted by the core, one constructor per `logger` call
site relevant to dispatch. -/
inductive LogEntry where
  /-- `logger.error('Handler error for %s: %s', event_name, e, ...)`. -/
  | handlerError (event : String) (msg : String) : LogEntry
  /-- `logger.error('Error handling event: %s', e, ...)` in `_ws_loop`. -/
  | errorHandlingEvent (msg : String) : LogEntry
  /-- `logger.warning('Received non-JSON message')` in `_ws_loop`. -/
  | nonJsonWarning : LogEntry
  /-- `logger.debug('Unhandled WS message type: %s', event_type)`. -/
  | debugUnhandled (t : String) : LogEntry
  /-- `logger.error('API %s %s → %s: %s', method, path, resp.status, data)`. -/
  | apiError (method : String) (path : String) (status : Nat) (body : String) : LogEntry
deriving Repr, DecidableEq

/-- The formatted text of a log record, following the format strings of
`sdk/client.py`. -/
def LogEntry.text : LogEntry → String
  | .handlerError event msg => "Handler error for " ++ event ++ ": " ++ msg
  | .errorHandlingEvent msg => "Error handling event: " ++ msg
  | .nonJsonWarning => "Received non-JSON message"
  | .debugUnhandled t => "Unhandled WS message type: " ++ t
  | .apiError method path status body =>
      "API " ++ method ++ " " ++ path ++ " → " ++ toString status ++ ": " ++ body

/-- One `await handler(...)` performed by `_dispatch_event`: either a slash
command handler applied to its context, or the event handler at index
`idx` of the registration list for `event`, applied to `arg`. -/
inductive Invocation where
  | slash (ctx : SlashCommandContext) : Invocation
  | event (event : String) (idx : Nat) (arg : HandlerArg) : Invocation
deriving Repr

/-- Result of one `_dispatch_event` call: the handler invocations made, the
log entries emitted, and the message of an exception escaping
`_dispatch_event` itself, if any. -/
structure DispatchOutcome where
  calls : List Invocation
  logs : List LogEntry
  raised : Option String
deriving Repr

/-- The `for handler in handlers:` loop of `_dispatch_event`: invoke each
handler in order on `arg`; a raised exception is caught and logged as
`Handler error for <event>` and the loop continues.  `i` is the index of
the first handler in the full registration list. -/
def runEventHandlers (event : String) (arg : HandlerArg) :
    Nat → List EventHandler → List Invocation × List LogEntry
  | _, [] => ([], [])
  | i, h :: rest =>
      let tail := runEventHandlers event arg (i + 1) rest
      match h arg with
      | .ok => (.event event i arg :: tail.1, tail.2)
      | .exn e => (.event event i arg :: tail.1, .handlerError event e :: tail.2)

/-- Lines 278-279 of `_dispatch_event`:
`event_data['server_id'] = data.get('server_id', '')` and likewise for
`channel_id`. -/
def injectIds (data : Dict) (event_data : Dict) : Dict :=
  dictSet (dictSet event_data "server_id" (dictGetD data "server_id" (.str "")))
    "channel_id" (dictGetD data "channel_id" (.str ""))

/-- The context built for a slash command invocation (the
`SlashCommandContext(...)` construction site in `_dispatch_event`;
`_bot=self` is truthy). -/
def buildSlashContext (cmd : JValue) (event_data : Dict) : SlashCommandContext :=
  { command_name := cmd
    arguments := dictGetD event_data "arguments" (.obj [])
    user := dictGetD event_data "user" (.str "")
    server_id := dictGetD event_data "server_id" (.str "")
    channel_id := dictGetD event_data "channel_id" (.str "")
    hasBot := true }

/-- `self._slash_handlers.get(cmd_name)`: the table is keyed by strings, so
a non-string `cmd_name` finds nothing. -/
def findSlashHandler (tbl : List (String × SlashHandler)) : JValue → Option SlashHandler
  | .str s => lookupAssoc tbl s
  | _ => none

/-- `self._event_handlers.get(event_name, [])`. -/
def lookupEventHandlers (tbl : List (String × List EventHandler)) : JValue → List EventHandler
  | .str s => (lookupAssoc tbl s).getD []
  | _ => []

/-- The `bot_event` branch of `_dispatch_event`, given the envelope `data`
and its payload dict `event_data`.  A slash handler runs outside any
`try`, so its exception escapes (`raised`); generic event handlers run
inside the per-handler `try`. -/
def dispatchBotEvent (st : BotState) (data : Dict) (event_data : Dict) : DispatchOutcome :=
  let event_name := dictGetD data "event" (.str "")
  let ed := injectIds data event_data
  if isStrEq event_name "slash_command" then
    let cmd := dictGetD ed "command" (.str "")
    match findSlashHandler st.slashHandlers cmd with
    | some h =>
        let ctx := buildSlashContext cmd ed
        match h ctx with
        | .ok => { calls := [.slash ctx], logs := [], raised := none }
        | .exn e => { calls := [.slash ctx], logs := [], raised := some e }
    | none => { calls := [], logs := [], raised := none }
  else
    let handlers := lookupEventHandlers st.eventHandlers event_name
    let arg :=
      if isStrEq event_name "message_create" then
        HandlerArg.msg (Message.from_event ed)
      else
        HandlerArg.raw ed
    let r := runEventHandlers event_name.pyStr arg 0 handlers
    { calls := r.1, logs := r.2, raised := none }

/-- `DecentraBot._dispatch_event` on a decoded envelope.  A `data` value
that is present but not a dict makes `event_data['server_id'] = ...`
raise a `TypeError`, which escapes `_dispatch_event`. -/
def dispatchEvent (st : BotState) (data : Dict) : DispatchOutcome :=
  let event_type := dictGetD data "type" (.str "")
  if isStrEq event_type "bot_event" then
    match lookupAssoc data "data" with
    | some (.obj ed) => dispatchBotEvent st data ed
    | some _ =>
        { calls := [], logs := [],
          raised := some "TypeError: object does not support item assignment" }
    | none => dispatchBotEvent st data []
  else if isStrEq event_type "pong" then
    { calls := [], logs := [], raised := none }
  else
    { calls := [], logs := [LogEntry.debugUnhandled event_type.pyStr], raised := none }

/-- One raw frame from the stream, after the `json.loads` attempt:
either a decoded JSON object or a malformed (non-JSON) message. -/
inductive Frame where
  | json (d : Dict) : Frame
  | malformed : Frame

/-- The per-frame body of `_ws_loop`'s `async for`: `json.loads` failure is
logged and skipped; an exception escaping `_dispatch_event` is caught and
logged as `Error handling event`.  Nothing propagates out of one frame. -/
def processFrame (st : BotState) (f : Frame) : List Invocation × List LogEntry :=
  match f with
  | .malformed => ([], [LogEntry.nonJsonWarning])
  | .json d =>
      let r := dispatchEvent st d
      match r.raised with
      | none => (r.calls, r.logs)
      | some e => (r.calls, r.logs ++ [LogEntry.errorHandlingEvent e])

/-- The `async for raw_message in self._ws:` loop over a finite stream of
frames: every frame is processed, in order. -/
def processFrames (st : BotState) : List Frame → List Invocation × List LogEntry
  | [] => ([], [])
  | f :: rest =>
      let a := processFrame st f
      let b := processFrames st rest
      (a.1 ++ b.1, a.2 ++ b.2)

/-!
The authentication handshake (`DecentraBot._connect_ws`), one connection
attempt, the reconnection supervisor (`DecentraBot._ws_loop`), and the
action client (`DecentraBot._api_request`).
-/

/-- The non-raising outcomes of the auth handshake in `_connect_ws`:
`bot_auth_success` (identity logged), or any unrecognised response
(logged as a warning, dispatch proceeds). -/
inductive AuthResult where
  | success (username : JValue) (bot_id : JValue) : AuthResult
  | unexpected (raw : Dict) : AuthResult
deriving Repr

/-- `DecentraBot._connect_ws`, restricted to the handling of the single
auth response frame: `type == bot_auth_success` succeeds; `type == error`
raises `ConnectionError('Authentication failed: <message>')` — the
handshake-rejection kind of failure, carried as an `Except.error` with
the exception's message; anything else is a soft success. -/
def connect_ws (auth_data : Dict) : Except String AuthResult :=
  if isStrEq (dictGetD auth_data "type" .null) "bot_auth_success" then
    .ok (.success (dictGetD auth_data "username" .null) (dictGetD auth_data "bot_id" .null))
  else if isStrEq (dictGetD auth_data "type" .null) "error" then
    .error ("Authentication failed: " ++ (dictGetD auth_data "message" .null).pyStr)
  else
    .ok (.unexpected auth_data)

/-- Result of one connection attempt of `_ws_loop`: either the handshake
raised (no frame of this attempt is ever read or dispatched), or the
stream was entered and its frames processed. -/
inductive AttemptResult where
  | authFailed (excMsg : String) : AttemptResult
  | streamed (calls : List Invocation) (logs : List LogEntry) : AttemptResult
deriving Repr

/-- The handler invocations performed during an attempt. -/
def AttemptResult.dispatched : AttemptResult → List Invocation
  | .authFailed _ => []
  | .streamed calls _ => calls

/-- One iteration body of `_ws_loop`: `_connect_ws` on the auth response,
then the dispatch loop over the frames the transport delivers. -/
def connectionAttempt (st : BotState) (auth_data : Dict) (frames : List Frame) :
    AttemptResult :=
  match connect_ws auth_data with
  | .error m => .authFailed m
  | .ok _ =>
      let r := processFrames st frames
      .streamed r.1 r.2

/-- How an attempt of `_ws_loop` failed, one constructor per `except`
clause: `websockets.exceptions.ConnectionClosed`, builtin
`ConnectionError` (the class `_connect_ws` raises on handshake
rejection), or any other `Exception`. -/
inductive AttemptFailure where
  | connectionClosed (info : String) : AttemptFailure
  | connectionError (msg : String) : AttemptFailure
  | unexpected (msg : String) : AttemptFailure
deriving Repr, DecidableEq

/-- The wait `_ws_loop` performs before the next attempt, per `except`
clause: `ConnectionClosed` falls through to `await asyncio.sleep(5)`;
`ConnectionError` does `await asyncio.sleep(10)` and `continue`; any
other exception falls through to `await asyncio.sleep(5)`. -/
def backoffWait : AttemptFailure → Nat
  | .connectionClosed _ => 5
  | .connectionError _ => 10
  | .unexpected _ => 5

/-- The classification `_ws_loop`'s `except` clauses give to a failed
attempt: the `ConnectionError` raised by `_connect_ws` on handshake
rejection lands in the 10-unit branch. -/
def classifyAttempt : AttemptResult → Option AttemptFailure
  | .authFailed m => some (.connectionError m)
  | .streamed _ _ => none

/-- The `while self._running:` supervisor loop of `_ws_loop`, traced over
`fuel` iterations starting at attempt index `i`: each iteration first
checks the running flag, then performs attempt `i` (which fails as
`failures i`) and waits `backoffWait (failures i)` before the next
check.  The trace records each performed attempt with its wait. -/
def wsLoopTrace (running : Nat → Bool) (failures : Nat → AttemptFailure) :
    Nat → Nat → List (AttemptFailure × Nat)
  | 0, _ => []
  | fuel + 1, i =>
      if running i then
        (failures i, backoffWait (failures i)) :: wsLoopTrace running failures fuel (i + 1)
      else
        []

/-- An HTTP response as seen by `_api_request` after `resp.json()`:
status code and parsed body. -/
structure HttpResponse where
  status : Nat
  body : JValue
deriving Repr

/-- `DecentraBot._api_request`: parse the body, log an API error when
`resp.status >= 400`, and return the parsed body either way — the
function never raises on HTTP error status. -/
def api_request (method : String) (path : String) (resp : HttpResponse) :
    List LogEntry × JValue :=
  (if 400 ≤ resp.status then [LogEntry.apiError method path resp.status resp.body.pyStr]
   else [],
   resp.body)

/-!
Helper lemmas.
-/

theorem lookupAssoc_assocSet_self {α : Type} (l : List (String × α)) (k : String) (v : α) :
    lookupAssoc (assocSet l k v) k = some v := by
  induction l with
  | nil => simp [assocSet, lookupAssoc]
  | cons kv rest ih =>
      obtain ⟨k', v'⟩ := kv
      by_cases hk : k' = k
      · simp [assocSet, hk, lookupAssoc]
      · simp [assocSet, hk, lookupAssoc, ih]

theorem lookupAssoc_assocSet_ne {α : Type} (l : List (String × α)) (k k' : String) (v : α)
    (hne : k' ≠ k) : lookupAssoc (assocSet l k v) k' = lookupAssoc l k' := by
  induction l with
  | nil => simp [assocSet, lookupAssoc, Ne.symm hne]
  | cons kv rest ih =>
      obtain ⟨k0, v0⟩ := kv
      by_cases hk : k0 = k
      · subst hk
        simp [assocSet, lookupAssoc, Ne.symm hne]
      · simp [assocSet, hk, lookupAssoc, ih]

theorem dictGetD_eq_of_lookup (d : Dict) (k : String) (v : JValue) (dflt : JValue)
    (h : lookupAssoc d k = some v) : dictGetD d k dflt = v := by
  simp [dictGetD, h]

theorem dictGetD_eq_of_none (d : Dict) (k : String) (dflt : JValue)
    (h : lookupAssoc d k = none) : dictGetD d k dflt = dflt := by
  simp [dictGetD, h]

theorem injectIds_channel (data ed : Dict) :
    lookupAssoc (injectIds data ed) "channel_id" =
      some (dictGetD data "channel_id" (.str "")) := by
  simp [injectIds, dictSet, lookupAssoc_assocSet_self]

theorem injectIds_server (data ed : Dict) :
    lookupAssoc (injectIds data ed) "server_id" =
      some (dictGetD data "server_id" (.str "")) := by
  unfold injectIds dictSet
  rw [lookupAssoc_assocSet_ne _ _ _ _ (by decide)]
  exact lookupAssoc_assocSet_self _ _ _

theorem injectIds_other (data ed : Dict) (k : String)
    (h1 : k ≠ "server_id") (h2 : k ≠ "channel_id") :
    lookupAssoc (injectIds data ed) k = lookupAssoc ed k := by
  unfold injectIds dictSet
  rw [lookupAssoc_assocSet_ne _ _ _ _ h2, lookupAssoc_assocSet_ne _ _ _ _ h1]

/-- The exception message a raised handler turns into a per-handler log. -/
def handlerLogOf (ev : String) (arg : HandlerArg) (h : EventHandler) : Option LogEntry :=
  match h arg with
  | .ok => none
  | .exn e => some (.handlerError ev e)

theorem runEventHandlers_calls (ev : String) (arg : HandlerArg) :
    ∀ (hs : List EventHandler) (i : Nat),
      (runEventHandlers ev arg i hs).1 =
        (List.range hs.length).map (fun j => Invocation.event ev (i + j) arg)
  | [], i => by simp [runEventHandlers]
  | h :: rest, i => by
      have ih := runEventHandlers_calls ev arg rest (i + 1)
      have key : (runEventHandlers ev arg i (h :: rest)).1 =
          Invocation.event ev i arg :: (runEventHandlers ev arg (i + 1) rest).1 := by
        cases hr : h arg <;> simp [runEventHandlers, hr]
      rw [key, ih]
      rw [show (h :: rest).length = rest.length + 1 from rfl, List.range_succ_eq_map,
        List.map_cons, List.map_map]
      refine congrArg₂ List.cons (by simp) ?_
      refine List.map_congr_left ?_
      intro j _
      show Invocation.event ev (i + 1 + j) arg = Invocation.event ev (i + (j + 1)) arg
      congr 1
      omega

theorem runEventHandlers_logs (ev : String) (arg : HandlerArg) :
    ∀ (hs : List EventHandler) (i : Nat),
      (runEventHandlers ev arg i hs).2 = hs.filterMap (handlerLogOf ev arg)
  | [], _ => by simp [runEventHandlers]
  | h :: rest, i => by
      have ih := runEventHandlers_logs ev arg rest (i + 1)
      cases hr : h arg <;> simp [runEventHandlers, hr, ih, handlerLogOf]

theorem dictGetD_injectIds_server (env ed : Dict) (dflt : JValue) :
    dictGetD (injectIds env ed) "server_id" dflt = dictGetD env "server_id" (.str "") :=
  dictGetD_eq_of_lookup _ _ _ _ (injectIds_server env ed)

theorem dictGetD_injectIds_channel (env ed : Dict) (dflt : JValue) :
    dictGetD (injectIds env ed) "channel_id" dflt = dictGetD env "channel_id" (.str "") :=
  dictGetD_eq_of_lookup _ _ _ _ (injectIds_channel env ed)

/-!
Claim theorems.
-/

/-- C8: for every action-client request whose HTTP response status is
≥ 400, `_api_request` does not raise: it logs an API error and still
returns the parsed JSON body, identical to what a success status (e.g.
200) would return. -/
theorem C8_api_error_logged_body_returned (method path : String) (status : Nat)
    (body : JValue) (h : 400 ≤ status) :
    (api_request method path ⟨status, body⟩).2 = body ∧
    (api_request method path ⟨status, body⟩).1 =
      [LogEntry.apiError method path status body.pyStr] ∧
    (api_request method path ⟨status, body⟩).2 = (api_request method path ⟨200, body⟩).2 := by
  refine ⟨rfl, ?_, rfl⟩
  simp [api_request, h]

theorem C8_api_error_logged_body_returned_witness :
    (api_request "POST" "/api/bot/messages" ⟨500, .obj [("error", .str "boom")]⟩).2 =
      .obj [("error", .str "boom")] :=
  (C8_api_error_logged_body_returned "POST" "/api/bot/messages" 500
    (.obj [("error", .str "boom")]) (by decide)).1

/-- C10: `SlashCommandContext.reply` sends a message only when the context
has a truthy client back-reference and truthy (for strings: non-empty)
`server_id` and `channel_id`; when any of the three is missing it performs
no request and returns `None`, and it never raises (it is total). -/
theorem C10_reply_requires_bot_and_ids (ctx : SlashCommandContext) (content : String) :
    (ctx.hasBot = false ∨ ctx.server_id.truthy = false ∨ ctx.channel_id.truthy = false →
      ctx.reply content = none) ∧
    (ctx.hasBot = true → ctx.server_id.truthy = true → ctx.channel_id.truthy = true →
      ctx.reply content = some (sendMessagePayload ctx.server_id ctx.channel_id content)) ∧
    (∀ s : String, JValue.truthy (.str s) = true ↔ s ≠ "") := by
  refine ⟨?_, ?_, ?_⟩
  · rintro (h | h | h) <;> simp [SlashCommandContext.reply, h]
  · intro h1 h2 h3
    simp [SlashCommandContext.reply, h1, h2, h3]
  · intro s
    simp [JValue.truthy]

theorem C10_reply_requires_bot_and_ids_witness :
    SlashCommandContext.reply
      { command_name := .str "ping", arguments := .obj [], user := .str "alice",
        server_id := .str "s1", channel_id := .str "", hasBot := true } "hi" = none :=
  (C10_reply_requires_bot_and_ids _ "hi").1 (Or.inr (Or.inr (by decide)))

/-- C9: on every `bot_event` envelope the dispatcher overwrites the
payload's `server_id` and `channel_id` with the envelope's values (the
empty string when the envelope lacks the key) before any handler argument
or command context is built from the payload: any value already present
in the raw payload under either key is replaced, every raw payload handed
to a handler is the injected dict, every `Message` handed to a handler is
built from the injected dict, and every slash context carries the
envelope's identifiers. -/
theorem C9_envelope_ids_injected (st : BotState) (env ed : Dict) :
    lookupAssoc (injectIds env ed) "server_id" = some (dictGetD env "server_id" (.str "")) ∧
    lookupAssoc (injectIds env ed) "channel_id" = some (dictGetD env "channel_id" (.str "")) ∧
    (lookupAssoc env "server_id" = none →
      lookupAssoc (injectIds env ed) "server_id" = some (.str "")) ∧
    (lookupAssoc env "channel_id" = none →
      lookupAssoc (injectIds env ed) "channel_id" = some (.str "")) ∧
    (dictGetD env "type" (.str "") = .str "bot_event" →
     lookupAssoc env "data" = some (.obj ed) →
      ((∀ ctx, Invocation.slash ctx ∈ (dispatchEvent st env).calls →
          ctx.server_id = dictGetD env "server_id" (.str "") ∧
          ctx.channel_id = dictGetD env "channel_id" (.str "")) ∧
       (∀ name i d2, Invocation.event name i (.raw d2) ∈ (dispatchEvent st env).calls →
          d2 = injectIds env ed) ∧
       (∀ name i m, Invocation.event name i (.msg m) ∈ (dispatchEvent st env).calls →
          m = Message.from_event (injectIds env ed) ∧
          m.server_id = dictGetD env "server_id" (.str "") ∧
          m.channel_id = dictGetD env "channel_id" (.str "")))) := by
  refine ⟨injectIds_server env ed, injectIds_channel env ed, ?_, ?_, ?_⟩
  · intro h
    rw [injectIds_server env ed, dictGetD_eq_of_none _ _ _ h]
  · intro h
    rw [injectIds_channel env ed, dictGetD_eq_of_none _ _ _ h]
  · intro htype hdata
    have hdisp : dispatchEvent st env = dispatchBotEvent st env ed := by
      simp [dispatchEvent, htype, isStrEq, hdata]
    rw [hdisp]
    unfold dispatchBotEvent
    by_cases hslash : isStrEq (dictGetD env "event" (.str "")) "slash_command"
    · simp only [hslash, if_true]
      refine ⟨?_, ?_, ?_⟩
      · intro ctx hmem
        cases hfind : findSlashHandler st.slashHandlers
            (dictGetD (injectIds env ed) "command" (.str "")) with
        | none => simp [hfind] at hmem
        | some h =>
            cases hr : h (buildSlashContext
                (dictGetD (injectIds env ed) "command" (.str "")) (injectIds env ed)) <;>
              simp [hfind, hr] at hmem <;>
              (subst hmem
               exact ⟨dictGetD_injectIds_server env ed _, dictGetD_injectIds_channel env ed _⟩)
      · intro name i d2 hmem
        cases hfind : findSlashHandler st.slashHandlers
            (dictGetD (injectIds env ed) "command" (.str "")) with
        | none => simp [hfind] at hmem
        | some h =>
            cases hr : h (buildSlashContext
                (dictGetD (injectIds env ed) "command" (.str "")) (injectIds env ed)) <;>
              simp [hfind, hr] at hmem
      · intro name i m hmem
        cases hfind : findSlashHandler st.slashHandlers
            (dictGetD (injectIds env ed) "command" (.str "")) with
        | none => simp [hfind] at hmem
        | some h =>
            cases hr : h (buildSlashContext
                (dictGetD (injectIds env ed) "command" (.str "")) (injectIds env ed)) <;>
              simp [hfind, hr] at hmem
    · rw [if_neg hslash]
      by_cases hmc : isStrEq (dictGetD env "event" (.str "")) "message_create"
      · rw [if_pos hmc]
        have hcalls := runEventHandlers_calls (dictGetD env "event" (.str "")).pyStr
          (HandlerArg.msg (Message.from_event (injectIds env ed)))
          (lookupEventHandlers st.eventHandlers (dictGetD env "event" (.str ""))) 0
        refine ⟨?_, ?_, ?_⟩
        · intro ctx hmem
          simp only [hcalls] at hmem
          obtain ⟨j, hjmem, hj⟩ := List.mem_map.mp hmem
          exact absurd hj (by simp)
        · intro name i d2 hmem
          simp only [hcalls] at hmem
          obtain ⟨j, hjmem, hj⟩ := List.mem_map.mp hmem
          exact absurd hj (by simp)
        · intro name i m hmem
          simp only [hcalls] at hmem
          obtain ⟨j, hjmem, hj⟩ := List.mem_map.mp hmem
          simp only [Invocation.event.injEq] at hj
          obtain ⟨-, -, ha⟩ := hj
          obtain ⟨hm⟩ := ha
          refine ⟨rfl, ?_, ?_⟩
          · simp [Message.from_event, dictGetD_injectIds_server]
          · simp [Message.from_event, dictGetD_injectIds_channel]
      · rw [if_neg hmc]
        have hcalls := runEventHandlers_calls (dictGetD env "event" (.str "")).pyStr
          (HandlerArg.raw (injectIds env ed))
          (lookupEventHandlers st.eventHandlers (dictGetD env "event" (.str ""))) 0
        refine ⟨?_, ?_, ?_⟩
        · intro ctx hmem
          simp only [hcalls] at hmem
          obtain ⟨j, hjmem, hj⟩ := List.mem_map.mp hmem
          exact absurd hj (by simp)
        · intro name i d2 hmem
          simp only [hcalls] at hmem
          obtain ⟨j, hjmem, hj⟩ := List.mem_map.mp hmem
          simp only [Invocation.event.injEq] at hj
          obtain ⟨-, -, ha⟩ := hj
          obtain ⟨hd⟩ := ha
          rfl
        · intro name i m hmem
          simp only [hcalls] at hmem
          obtain ⟨j, hjmem, hj⟩ := List.mem_map.mp hmem
          exact absurd hj (by simp)

/-- A slash handler that returns normally. -/
def pingOkHandler : SlashHandler := fun _ => .ok

/-- A slash handler that raises. -/
def pingBoomHandler : SlashHandler := fun _ => .exn "boom"

/-- The state after registering `ping` twice via the `slash_command`
decorator. -/
def c3_state : BotState :=
  slash_command (slash_command {} "ping" "first" [] pingOkHandler)
    "ping" "second" [] pingBoomHandler

/-- C3 counterexample: after two `slash_command` registrations under the
name `ping`, the definitions list transmitted to the server contains two
definitions for that name, not exactly one — `_slash_definitions.append`
never removes the earlier entry. -/
theorem C3_counterexample :
    (defsNamed c3_state "ping").length = 2 ∧
      ¬ (defsNamed c3_state "ping").length = 1 := by
  constructor <;> decide

/-- C3 (amended): registering a slash command overwrites any prior handler
for the same name — after two registrations with the same name the
handler table maps that name to the last handler — but the definitions
list appends one entry per registration, so the list transmitted to the
server contains both definitions for that name, in registration order
(the last one last). -/
theorem C3_last_handler_wins_but_definitions_append (st : BotState)
    (name d1 d2 : String) (p1 p2 : List JValue) (h1 h2 : SlashHandler) :
    lookupAssoc (slash_command (slash_command st name d1 p1 h1) name d2 p2 h2).slashHandlers
      name = some h2 ∧
    (slash_command (slash_command st name d1 p1 h1) name d2 p2 h2).slashDefinitions =
      st.slashDefinitions ++ [slashCommandDef name d1 p1, slashCommandDef name d2 p2] ∧
    (defsNamed st name = [] →
      defsNamed (slash_command (slash_command st name d1 p1 h1) name d2 p2 h2) name =
        [slashCommandDef name d1 p1, slashCommandDef name d2 p2]) ∧
    (st.slashDefinitions = [] →
      register_commands (slash_command (slash_command st name d1 p1 h1) name d2 p2 h2) =
        some [("commands",
          .arr [.obj (slashCommandDef name d1 p1), .obj (slashCommandDef name d2 p2)])]) := by
  refine ⟨?_, ?_, ?_, ?_⟩
  · exact lookupAssoc_assocSet_self _ _ _
  · simp [slash_command]
  · intro h
    have hpred : ∀ ds : String, ∀ ps : List JValue,
        isStrEq (dictGetD (slashCommandDef name ds ps) "name" .null) name = true := by
      intro ds ps
      simp [slashCommandDef, dictGetD, lookupAssoc, isStrEq]
    simp only [defsNamed, slash_command, List.append_assoc, List.filter_append] at *
    rw [h]
    simp [List.filter, hpred]
  · intro h
    simp [register_commands, slash_command, h]

theorem C3_last_handler_wins_but_definitions_append_witness :
    lookupAssoc c3_state.slashHandlers "ping" = some pingBoomHandler ∧
    defsNamed c3_state "ping" =
      [slashCommandDef "ping" "first" [], slashCommandDef "ping" "second" []] :=
  have h := C3_last_handler_wins_but_definitions_append {} "ping" "first" "second"
    [] [] pingOkHandler pingBoomHandler
  ⟨h.1, h.2.2.1 rfl⟩

/-- A `bot_event` envelope that lacks `server_id` and whose payload
carries a spoofed `server_id`. -/
def c9_env : Dict :=
  [("type", .str "bot_event"), ("event", .str "message_create"),
   ("data", .obj [("server_id", .str "SPOOF")])]

theorem C9_envelope_ids_injected_witness :
    lookupAssoc (injectIds c9_env [("server_id", .str "SPOOF")]) "server_id" =
      some (.str "") :=
  (C9_envelope_ids_injected {} c9_env [("server_id", .str "SPOOF")]).2.2.1 rfl

theorem dictGetD_injectIds_other (env ed : Dict) (k : String) (dflt : JValue)
    (h1 : k ≠ "server_id") (h2 : k ≠ "channel_id") :
    dictGetD (injectIds env ed) k dflt = dictGetD ed k dflt := by
  unfold dictGetD
  rw [injectIds_other env ed k h1 h2]

/-- C6: dispatching a `bot_event` envelope of kind `slash_command` whose
(injected) payload names a registered command invokes that command's
handler exactly once, with a context whose `user` comes from the payload
and whose `server_id`/`channel_id` equal the envelope's values; when the
command is not registered, no handler is invoked, nothing is logged and
nothing is raised. -/
theorem C6_slash_dispatch (st : BotState) (env ed : Dict)
    (htype : dictGetD env "type" (.str "") = .str "bot_event")
    (hdata : lookupAssoc env "data" = some (.obj ed))
    (hevent : dictGetD env "event" (.str "") = .str "slash_command") :
    (∀ (cmd : String) (h : SlashHandler),
      dictGetD (injectIds env ed) "command" (.str "") = .str cmd →
      lookupAssoc st.slashHandlers cmd = some h →
      (dispatchEvent st env).calls =
        [Invocation.slash
          { command_name := .str cmd
            arguments := dictGetD ed "arguments" (.obj [])
            user := dictGetD ed "user" (.str "")
            server_id := dictGetD env "server_id" (.str "")
            channel_id := dictGetD env "channel_id" (.str "")
            hasBot := true }]) ∧
    (findSlashHandler st.slashHandlers (dictGetD (injectIds env ed) "command" (.str "")) =
        none →
      (dispatchEvent st env).calls = [] ∧ (dispatchEvent st env).logs = [] ∧
        (dispatchEvent st env).raised = none) := by
  have hdisp : dispatchEvent st env = dispatchBotEvent st env ed := by
    simp [dispatchEvent, htype, isStrEq, hdata]
  have hctx : ∀ cmd : String,
      buildSlashContext (.str cmd) (injectIds env ed) =
        { command_name := .str cmd
          arguments := dictGetD ed "arguments" (.obj [])
          user := dictGetD ed "user" (.str "")
          server_id := dictGetD env "server_id" (.str "")
          channel_id := dictGetD env "channel_id" (.str "")
          hasBot := true } := by
    intro cmd
    unfold buildSlashContext
    rw [dictGetD_injectIds_other env ed "arguments" _ (by decide) (by decide)]
    rw [dictGetD_injectIds_other env ed "user" _ (by decide) (by decide)]
    rw [dictGetD_injectIds_server, dictGetD_injectIds_channel]
  constructor
  · intro cmd h hcmd hfind
    rw [hdisp]
    unfold dispatchBotEvent
    rw [hevent]
    rw [if_pos (by simp [isStrEq])]
    rw [hcmd]
    have hfind2 : findSlashHandler st.slashHandlers (.str cmd) = some h := by
      simp [findSlashHandler, hfind]
    simp only [hfind2]
    cases hr : h (buildSlashContext (.str cmd) (injectIds env ed)) <;>
      simp [hr, hctx cmd]
  · intro hfind
    rw [hdisp]
    unfold dispatchBotEvent
    rw [hevent]
    rw [if_pos (by simp [isStrEq])]
    simp only [hfind]
    exact ⟨trivial, trivial, trivial⟩

/-- The state with a single `ping` slash command registered. -/
def c6_state : BotState := slash_command {} "ping" "Ping the bot" [] pingOkHandler

/-- The spec's example envelope for a registered command. -/
def c6_env : Dict :=
  [("type", .str "bot_event"), ("event", .str "slash_command"),
   ("server_id", .str "s1"), ("channel_id", .str "c1"),
   ("data", .obj [("command", .str "ping"), ("arguments", .obj []),
                  ("user", .str "alice")])]

/-- The spec's example envelope for an unregistered command. -/
def c6_env_unknown : Dict :=
  [("type", .str "bot_event"), ("event", .str "slash_command"),
   ("server_id", .str "s1"), ("channel_id", .str "c1"),
   ("data", .obj [("command", .str "unknown"), ("arguments", .obj []),
                  ("user", .str "alice")])]

theorem C6_slash_dispatch_witness :
    (dispatchEvent c6_state c6_env).calls =
      [Invocation.slash
        { command_name := .str "ping", arguments := .obj [], user := .str "alice",
          server_id := .str "s1", channel_id := .str "c1", hasBot := true }] ∧
    (dispatchEvent c6_state c6_env_unknown).calls = [] := by
  constructor
  · exact (C6_slash_dispatch c6_state c6_env
      [("command", .str "ping"), ("arguments", .obj []), ("user", .str "alice")]
      rfl rfl rfl).1 "ping" pingOkHandler rfl rfl
  · exact ((C6_slash_dispatch c6_state c6_env_unknown
      [("command", .str "unknown"), ("arguments", .obj []), ("user", .str "alice")]
      rfl rfl rfl).2 rfl).1

/-- Shape of `_dispatch_event` on a `bot_event` of a non-slash kind: every
registered handler is invoked in registration order on the converted
argument, each raising handler contributes one `Handler error` log, and
nothing escapes. -/
theorem dispatchEvent_generic_eq (st : BotState) (env ed : Dict) (ename : String)
    (htype : dictGetD env "type" (.str "") = .str "bot_event")
    (hdata : lookupAssoc env "data" = some (.obj ed))
    (hevent : dictGetD env "event" (.str "") = .str ename)
    (hne : ename ≠ "slash_command") :
    dispatchEvent st env =
      { calls := (List.range (lookupEventHandlers st.eventHandlers (.str ename)).length).map
          (fun j => Invocation.event ename j
            (if ename = "message_create" then
              HandlerArg.msg (Message.from_event (injectIds env ed))
            else HandlerArg.raw (injectIds env ed)))
        logs := (lookupEventHandlers st.eventHandlers (.str ename)).filterMap
          (handlerLogOf ename
            (if ename = "message_create" then
              HandlerArg.msg (Message.from_event (injectIds env ed))
            else HandlerArg.raw (injectIds env ed)))
        raised := none } := by
  have hdisp : dispatchEvent st env = dispatchBotEvent st env ed := by
    simp [dispatchEvent, htype, isStrEq, hdata]
  have hslash : ¬ isStrEq (JValue.str ename) "slash_command" = true := by
    simp [isStrEq, hne]
  rw [hdisp]
  unfold dispatchBotEvent
  rw [hevent]
  rw [if_neg hslash]
  by_cases hmc : ename = "message_create"
  · rw [if_pos (by simp [isStrEq, hmc])]
    simp only [runEventHandlers_calls, runEventHandlers_logs]
    simp [JValue.pyStr, hmc]
  · rw [if_neg (by simp [isStrEq, hmc])]
    simp only [runEventHandlers_calls, runEventHandlers_logs]
    simp [JValue.pyStr, hmc]

/-- Shape of `_dispatch_event` on a `bot_event` of kind `slash_command`:
the `_event_handlers` loop is never reached, so the calls are empty or a
single slash invocation. -/
theorem dispatchEvent_slash_shape (st : BotState) (env ed : Dict)
    (htype : dictGetD env "type" (.str "") = .str "bot_event")
    (hdata : lookupAssoc env "data" = some (.obj ed))
    (hevent : dictGetD env "event" (.str "") = .str "slash_command") :
    (dispatchEvent st env).calls = [] ∨
      ∃ ctx, (dispatchEvent st env).calls = [Invocation.slash ctx] := by
  have hdisp : dispatchEvent st env = dispatchBotEvent st env ed := by
    simp [dispatchEvent, htype, isStrEq, hdata]
  rw [hdisp]
  unfold dispatchBotEvent
  rw [hevent]
  rw [if_pos (by simp [isStrEq])]
  cases hfind : findSlashHandler st.slashHandlers
      (dictGetD (injectIds env ed) "command" (.str "")) with
  | none =>
      left
      simp [hfind]
  | some h =>
      right
      refine ⟨buildSlashContext (dictGetD (injectIds env ed) "command" (.str ""))
        (injectIds env ed), ?_⟩
      simp only [hfind]
      cases hr : h (buildSlashContext
          (dictGetD (injectIds env ed) "command" (.str "")) (injectIds env ed)) <;>
        simp [hr]

/-- A state with one event handler registered for the kind
`slash_command` via `add_event_handler`. -/
def c5_state : BotState :=
  add_event_handler {} "slash_command" (fun _ => HandlerRes.ok)

/-- A `bot_event` envelope of kind `slash_command`. -/
def c5_env : Dict :=
  [("type", .str "bot_event"), ("event", .str "slash_command"), ("data", .obj [])]

/-- C5 counterexample: for the event kind `slash_command` the claim fails —
one handler is registered for that kind, yet dispatching an event of that
kind invokes no handler at all: the `slash_command` branch of
`_dispatch_event` returns before the `_event_handlers` loop is reached. -/
theorem C5_counterexample :
    (lookupEventHandlers c5_state.eventHandlers (.str "slash_command")).length = 1 ∧
    (dispatchEvent c5_state c5_env).calls = [] := by
  exact ⟨rfl, rfl⟩

/-- C5 (amended): for every event kind other than `slash_command` and every
list of registered handlers for it, dispatching one `bot_event` of that
kind invokes every handler in registration order (also after an earlier
handler raises), logs exactly one `Handler error` entry per raising
handler, raises nothing out of `_dispatch_event`, and the frame completes
normally so the dispatch loop continues. -/
theorem C5_handlers_run_in_order (st : BotState) (env ed : Dict) (ename : String)
    (htype : dictGetD env "type" (.str "") = .str "bot_event")
    (hdata : lookupAssoc env "data" = some (.obj ed))
    (hevent : dictGetD env "event" (.str "") = .str ename)
    (hne : ename ≠ "slash_command") :
    (dispatchEvent st env).calls =
      (List.range (lookupEventHandlers st.eventHandlers (.str ename)).length).map
        (fun j => Invocation.event ename j
          (if ename = "message_create" then
            HandlerArg.msg (Message.from_event (injectIds env ed))
          else HandlerArg.raw (injectIds env ed))) ∧
    (dispatchEvent st env).logs =
      (lookupEventHandlers st.eventHandlers (.str ename)).filterMap
        (handlerLogOf ename
          (if ename = "message_create" then
            HandlerArg.msg (Message.from_event (injectIds env ed))
          else HandlerArg.raw (injectIds env ed))) ∧
    (dispatchEvent st env).raised = none ∧
    processFrame st (Frame.json env) =
      ((dispatchEvent st env).calls, (dispatchEvent st env).logs) := by
  have hout := dispatchEvent_generic_eq st env ed ename htype hdata hevent hne
  refine ⟨by rw [hout], by rw [hout], by rw [hout], ?_⟩
  simp [processFrame, hout]

/-- An event handler that raises. -/
def c5w_h1 : EventHandler := fun _ => .exn "h1 failed"

/-- An event handler that returns normally. -/
def c5w_h2 : EventHandler := fun _ => .ok

/-- Two handlers registered for the kind `greet`, the first raising. -/
def c5w_state : BotState :=
  add_event_handler (add_event_handler {} "greet" c5w_h1) "greet" c5w_h2

/-- A `bot_event` envelope of kind `greet`. -/
def c5w_env : Dict :=
  [("type", .str "bot_event"), ("event", .str "greet"),
   ("server_id", .str "s"), ("channel_id", .str "c"),
   ("data", .obj [("x", .num 1)])]

theorem C5_handlers_run_in_order_witness :
    (dispatchEvent c5w_state c5w_env).calls.length = 2 ∧
    (dispatchEvent c5w_state c5w_env).logs =
      [LogEntry.handlerError "greet" "h1 failed"] ∧
    (dispatchEvent c5w_state c5w_env).raised = none := by
  have h := C5_handlers_run_in_order c5w_state c5w_env [("x", .num 1)] "greet"
    rfl rfl rfl (by decide)
  refine ⟨?_, ?_, h.2.2.1⟩
  · rw [h.1]
    rfl
  · rw [h.2.1]
    rfl

/-- C7: for `message_create` events the dispatcher hands each handler a
`Message` built from the (injected) payload; `Message.from_event`
preserves every present field — including the injected `server_id` and
`channel_id` — and defaults every absent optional field to its dataclass
default (`edited_at` to `None`, `is_bot` to `False`, `reactions` to `[]`,
etc.), keeping the whole payload in `raw`; for every other event kind
each handler receives the raw injected mapping unchanged. -/
theorem C7_message_record_conversion (d : Dict) (st : BotState) (env ed : Dict)
    (ename : String) :
    ((∀ v, lookupAssoc d "id" = some v → (Message.from_event d).id = v) ∧
     (lookupAssoc d "id" = none → (Message.from_event d).id = .null)) ∧
    ((∀ v, lookupAssoc d "username" = some v → (Message.from_event d).username = v) ∧
     (lookupAssoc d "username" = none → (Message.from_event d).username = .str "")) ∧
    ((∀ v, lookupAssoc d "content" = some v → (Message.from_event d).content = v) ∧
     (lookupAssoc d "content" = none → (Message.from_event d).content = .str "")) ∧
    ((∀ v, lookupAssoc d "timestamp" = some v → (Message.from_event d).timestamp = v) ∧
     (lookupAssoc d "timestamp" = none → (Message.from_event d).timestamp = .str "")) ∧
    ((∀ v, lookupAssoc d "server_id" = some v → (Message.from_event d).server_id = v) ∧
     (lookupAssoc d "server_id" = none → (Message.from_event d).server_id = .str "")) ∧
    ((∀ v, lookupAssoc d "channel_id" = some v → (Message.from_event d).channel_id = v) ∧
     (lookupAssoc d "channel_id" = none → (Message.from_event d).channel_id = .str "")) ∧
    ((∀ v, lookupAssoc d "context" = some v → (Message.from_event d).context = v) ∧
     (lookupAssoc d "context" = none → (Message.from_event d).context = .str "")) ∧
    ((∀ v, lookupAssoc d "context_id" = some v → (Message.from_event d).context_id = v) ∧
     (lookupAssoc d "context_id" = none → (Message.from_event d).context_id = .str "")) ∧
    ((∀ v, lookupAssoc d "is_bot" = some v → (Message.from_event d).is_bot = v) ∧
     (lookupAssoc d "is_bot" = none → (Message.from_event d).is_bot = .bool false)) ∧
    ((∀ v, lookupAssoc d "edited_at" = some v → (Message.from_event d).edited_at = v) ∧
     (lookupAssoc d "edited_at" = none → (Message.from_event d).edited_at = .null)) ∧
    ((∀ v, lookupAssoc d "reactions" = some v → (Message.from_event d).reactions = v) ∧
     (lookupAssoc d "reactions" = none → (Message.from_event d).reactions = .arr [])) ∧
    ((∀ v, lookupAssoc d "attachments" = some v → (Message.from_event d).attachments = v) ∧
     (lookupAssoc d "attachments" = none → (Message.from_event d).attachments = .arr [])) ∧
    ((∀ v, lookupAssoc d "mentions" = some v → (Message.from_event d).mentions = v) ∧
     (lookupAssoc d "mentions" = none → (Message.from_event d).mentions = .arr [])) ∧
    ((∀ v, lookupAssoc d "reply_data" = some v → (Message.from_event d).reply_data = v) ∧
     (lookupAssoc d "reply_data" = none → (Message.from_event d).reply_data = .null)) ∧
    (Message.from_event d).raw = d ∧
    (dictGetD env "type" (.str "") = .str "bot_event" →
     lookupAssoc env "data" = some (.obj ed) →
     dictGetD env "event" (.str "") = .str ename →
      ∀ name i arg, Invocation.event name i arg ∈ (dispatchEvent st env).calls →
        arg = (if ename = "message_create" then
                HandlerArg.msg (Message.from_event (injectIds env ed))
              else HandlerArg.raw (injectIds env ed))) := by
  refine ⟨⟨fun v hv => dictGetD_eq_of_lookup d "id" v _ hv,
      fun hn => dictGetD_eq_of_none d "id" _ hn⟩,
    ⟨fun v hv => dictGetD_eq_of_lookup d "username" v _ hv,
      fun hn => dictGetD_eq_of_none d "username" _ hn⟩,
    ⟨fun v hv => dictGetD_eq_of_lookup d "content" v _ hv,
      fun hn => dictGetD_eq_of_none d "content" _ hn⟩,
    ⟨fun v hv => dictGetD_eq_of_lookup d "timestamp" v _ hv,
      fun hn => dictGetD_eq_of_none d "timestamp" _ hn⟩,
    ⟨fun v hv => dictGetD_eq_of_lookup d "server_id" v _ hv,
      fun hn => dictGetD_eq_of_none d "server_id" _ hn⟩,
    ⟨fun v hv => dictGetD_eq_of_lookup d "channel_id" v _ hv,
      fun hn => dictGetD_eq_of_none d "channel_id" _ hn⟩,
    ⟨fun v hv => dictGetD_eq_of_lookup d "context" v _ hv,
      fun hn => dictGetD_eq_of_none d "context" _ hn⟩,
    ⟨fun v hv => dictGetD_eq_of_lookup d "context_id" v _ hv,
      fun hn => dictGetD_eq_of_none d "context_id" _ hn⟩,
    ⟨fun v hv => dictGetD_eq_of_lookup d "is_bot" v _ hv,
      fun hn => dictGetD_eq_of_none d "is_bot" _ hn⟩,
    ⟨fun v hv => dictGetD_eq_of_lookup d "edited_at" v _ hv,
      fun hn => dictGetD_eq_of_none d "edited_at" _ hn⟩,
    ⟨fun v hv => dictGetD_eq_of_lookup d "reactions" v _ hv,
      fun hn => dictGetD_eq_of_none d "reactions" _ hn⟩,
    ⟨fun v hv => dictGetD_eq_of_lookup d "attachments" v _ hv,
      fun hn => dictGetD_eq_of_none d "attachments" _ hn⟩,
    ⟨fun v hv => dictGetD_eq_of_lookup d "mentions" v _ hv,
      fun hn => dictGetD_eq_of_none d "mentions" _ hn⟩,
    ⟨fun v hv => dictGetD_eq_of_lookup d "reply_data" v _ hv,
      fun hn => dictGetD_eq_of_none d "reply_data" _ hn⟩,
    rfl, ?_⟩
  intro htype hdata hevent name i arg hmem
  by_cases hsl : ename = "slash_command"
  · subst hsl
    rcases dispatchEvent_slash_shape st env ed htype hdata hevent with hc | ⟨ctx, hc⟩
    · rw [hc] at hmem
      exact absurd hmem (List.not_mem_nil _)
    · rw [hc] at hmem
      simp at hmem
  · have hout := dispatchEvent_generic_eq st env ed ename htype hdata hevent hsl
    rw [hout] at hmem
    obtain ⟨j, hjmem, he⟩ := List.mem_map.mp hmem
    simp only [Invocation.event.injEq] at he
    exact he.2.2.symm

/-- The spec's example `message_create` payload, after injection of the
envelope identifiers. -/
def c7_d : Dict :=
  [("content", .str "!ping"), ("username", .str "bob"), ("is_bot", .bool false),
   ("server_id", .str "s1"), ("channel_id", .str "c1")]

theorem C7_message_record_conversion_witness :
    (Message.from_event c7_d).content = .str "!ping" ∧
    (Message.from_event c7_d).username = .str "bob" ∧
    (Message.from_event c7_d).is_bot = .bool false ∧
    (Message.from_event c7_d).server_id = .str "s1" ∧
    (Message.from_event c7_d).edited_at = .null ∧
    (Message.from_event c7_d).reactions = .arr [] := by
  have h := C7_message_record_conversion c7_d {} [] [] "x"
  exact ⟨h.2.2.1.1 _ rfl, h.2.1.1 _ rfl, h.2.2.2.2.2.2.2.2.1.1 _ rfl,
    h.2.2.2.2.1.1 _ rfl, h.2.2.2.2.2.2.2.2.2.1.2 rfl,
    h.2.2.2.2.2.2.2.2.2.2.1.2 rfl⟩

/-- A state with `ping` registered to a handler that raises `boom`. -/
def c2_state : BotState := slash_command {} "ping" "Ping the bot" [] pingBoomHandler

/-- A `slash_command` envelope invoking `ping`. -/
def c2_env : Dict :=
  [("type", .str "bot_event"), ("event", .str "slash_command"),
   ("server_id", .str "s1"), ("channel_id", .str "c1"),
   ("data", .obj [("command", .str "ping"), ("arguments", .obj []),
                  ("user", .str "alice")])]

/-- C2 counterexample: when the `ping` handler raises `boom`, exactly one
log entry is produced for the frame — `Error handling event: boom` from
the catch-all in `_ws_loop` — and no produced log line contains the
command name `ping`: the claim's "logged together with the command name"
fails on the code. -/
theorem C2_counterexample :
    (processFrame c2_state (Frame.json c2_env)).2 =
      [LogEntry.errorHandlingEvent "boom"] ∧
    ((processFrame c2_state (Frame.json c2_env)).2.map LogEntry.text).all
      (fun t => !(strContains t "ping")) = true := by
  exact ⟨rfl, by decide⟩

/-- C2 (amended): an exception raised inside a slash command handler is
not caught in `_dispatch_event` (the slash branch has no `try`): it
escapes and is caught by the per-frame `except Exception` in `_ws_loop`,
which logs it as `Error handling event` with the exception message only —
not with the command name — and the receive loop continues with the
subsequent frames. -/
theorem C2_slash_handler_exception_caught (st : BotState) (env ed : Dict)
    (cmd : String) (h : SlashHandler) (e : String)
    (htype : dictGetD env "type" (.str "") = .str "bot_event")
    (hdata : lookupAssoc env "data" = some (.obj ed))
    (hevent : dictGetD env "event" (.str "") = .str "slash_command")
    (hcmd : dictGetD (injectIds env ed) "command" (.str "") = .str cmd)
    (hfind : lookupAssoc st.slashHandlers cmd = some h)
    (hr : h (buildSlashContext (.str cmd) (injectIds env ed)) = .exn e) :
    (dispatchEvent st env).raised = some e ∧
    (dispatchEvent st env).logs = [] ∧
    processFrame st (Frame.json env) =
      ((dispatchEvent st env).calls, [LogEntry.errorHandlingEvent e]) ∧
    (∀ rest : List Frame,
      processFrames st (Frame.json env :: rest) =
        ((processFrame st (Frame.json env)).1 ++ (processFrames st rest).1,
         (processFrame st (Frame.json env)).2 ++ (processFrames st rest).2)) := by
  have hout : dispatchEvent st env =
      { calls := [Invocation.slash (buildSlashContext (.str cmd) (injectIds env ed))]
        logs := []
        raised := some e } := by
    have hdisp : dispatchEvent st env = dispatchBotEvent st env ed := by
      simp [dispatchEvent, htype, isStrEq, hdata]
    rw [hdisp]
    unfold dispatchBotEvent
    rw [hevent]
    rw [if_pos (by simp [isStrEq])]
    rw [hcmd]
    have hfind2 : findSlashHandler st.slashHandlers (.str cmd) = some h := by
      simp [findSlashHandler, hfind]
    simp only [hfind2]
    simp [hr]
  refine ⟨by rw [hout], by rw [hout], ?_, fun rest => rfl⟩
  simp [processFrame, hout]

theorem C2_slash_handler_exception_caught_witness :
    (dispatchEvent c2_state c2_env).raised = some "boom" ∧
    processFrame c2_state (Frame.json c2_env) =
      ((dispatchEvent c2_state c2_env).calls,
       [LogEntry.errorHandlingEvent "boom"]) := by
  have h := C2_slash_handler_exception_caught c2_state c2_env
    [("command", .str "ping"), ("arguments", .obj []), ("user", .str "alice")]
    "ping" pingBoomHandler "boom" rfl rfl rfl rfl rfl rfl
  exact ⟨h.1, h.2.2.1⟩

/-- C1: when the auth response frame is an `error` envelope carrying
message `m`, `_connect_ws` raises the handshake-rejection failure —
`ConnectionError('Authentication failed: <m>')`, the `AuthenticationError`
kind of the error taxonomy, which the supervisor's auth-failure branch
catches — whose message contains `m`, and the connection attempt never
enters the streaming state: no event frame is dispatched on that
attempt. -/
theorem C1_auth_error_rejects_connection (st : BotState) (auth : Dict) (m : String)
    (frames : List Frame)
    (htype : dictGetD auth "type" .null = .str "error")
    (hmsg : lookupAssoc auth "message" = some (.str m)) :
    connect_ws auth = .error ("Authentication failed: " ++ m) ∧
    (∃ pre post, "Authentication failed: " ++ m = pre ++ m ++ post) ∧
    connectionAttempt st auth frames = .authFailed ("Authentication failed: " ++ m) ∧
    (connectionAttempt st auth frames).dispatched = [] ∧
    classifyAttempt (connectionAttempt st auth frames) =
      some (.connectionError ("Authentication failed: " ++ m)) := by
  have hcw : connect_ws auth = .error ("Authentication failed: " ++ m) := by
    unfold connect_ws
    rw [htype]
    rw [if_neg (by simp [isStrEq])]
    rw [if_pos (by simp [isStrEq])]
    rw [dictGetD_eq_of_lookup _ _ _ _ hmsg]
    rfl
  have hca : connectionAttempt st auth frames =
      .authFailed ("Authentication failed: " ++ m) := by
    unfold connectionAttempt
    rw [hcw]
  refine ⟨hcw, ⟨"Authentication failed: ", "", by simp⟩, hca, ?_, ?_⟩
  · rw [hca]
    rfl
  · rw [hca]
    rfl

theorem C1_auth_error_rejects_connection_witness :
    connectionAttempt {} [("type", .str "error"), ("message", .str "bad token")]
        [Frame.json c2_env] =
      .authFailed "Authentication failed: bad token" ∧
    (connectionAttempt {} [("type", .str "error"), ("message", .str "bad token")]
        [Frame.json c2_env]).dispatched = [] := by
  have h := C1_auth_error_rejects_connection {}
    [("type", .str "error"), ("message", .str "bad token")] "bad token"
    [Frame.json c2_env] rfl rfl
  exact ⟨h.2.2.1, h.2.2.2.1⟩

theorem wsLoopTrace_wait (running : Nat → Bool) (failures : Nat → AttemptFailure) :
    ∀ (fuel start : Nat), ∀ p ∈ wsLoopTrace running failures fuel start,
      p.2 = backoffWait p.1
  | 0, start => by simp [wsLoopTrace]
  | fuel + 1, start => by
      intro p hp
      simp only [wsLoopTrace] at hp
      by_cases hr : running start
      · rw [if_pos hr] at hp
        rcases List.mem_cons.mp hp with h | h
        · rw [h]
        · exact wsLoopTrace_wait running failures fuel (start + 1) p h
      · rw [if_neg hr] at hp
        exact absurd hp (List.not_mem_nil p)

theorem wsLoopTrace_length_of_running (running : Nat → Bool)
    (failures : Nat → AttemptFailure) (hall : ∀ i, running i = true) :
    ∀ (fuel start : Nat), (wsLoopTrace running failures fuel start).length = fuel
  | 0, _ => rfl
  | fuel + 1, start => by
      simp [wsLoopTrace, hall start,
        wsLoopTrace_length_of_running running failures hall fuel (start + 1)]

theorem wsLoopTrace_stopped (running : Nat → Bool) (failures : Nat → AttemptFailure) :
    ∀ (fuel start : Nat), (wsLoopTrace running failures fuel start).length < fuel →
      running (start + (wsLoopTrace running failures fuel start).length) = false
  | 0, start => by
      intro h
      exact absurd h (Nat.not_lt_zero _)
  | fuel + 1, start => by
      by_cases hr : running start
      · simp only [wsLoopTrace, if_pos hr, List.length_cons]
        intro h
        have h2 : (wsLoopTrace running failures fuel (start + 1)).length < fuel := by
          omega
        have ih := wsLoopTrace_stopped running failures fuel (start + 1) h2
        rw [show start + ((wsLoopTrace running failures fuel (start + 1)).length + 1) =
          (start + 1) + (wsLoopTrace running failures fuel (start + 1)).length from by omega]
        exact ih
      · simp only [wsLoopTrace, if_neg hr, List.length_nil]
        intro _
        rw [Nat.add_zero]
        exact Bool.not_eq_true _ ▸ eq_false_of_ne_true hr

/-- C4: the reconnection supervisor applies a fixed failure-specific
backoff — 5 time units after a clean transport close
(`websockets.exceptions.ConnectionClosed`), 10 after the authentication
`ConnectionError`, 5 after any other unexpected exception —, every
performed attempt in the loop trace waits exactly the backoff of its
failure, the loop performs one attempt per iteration for as long as the
running flag stays set (no internal bound on the number of retries), and
it stops before exhausting its iterations only when the running flag has
been cleared externally. -/
theorem C4_reconnect_backoff (running : Nat → Bool) (failures : Nat → AttemptFailure)
    (fuel start : Nat) :
    (∀ s, backoffWait (.connectionClosed s) = 5) ∧
    (∀ msg, backoffWait (.connectionError msg) = 10) ∧
    (∀ msg, backoffWait (.unexpected msg) = 5) ∧
    (∀ p ∈ wsLoopTrace running failures fuel start, p.2 = backoffWait p.1) ∧
    ((∀ i, running i = true) → (wsLoopTrace running failures fuel start).length = fuel) ∧
    ((wsLoopTrace running failures fuel start).length < fuel →
      running (start + (wsLoopTrace running failures fuel start).length) = false) :=
  ⟨fun _ => rfl, fun _ => rfl, fun _ => rfl,
    wsLoopTrace_wait running failures fuel start,
    fun hall => wsLoopTrace_length_of_running running failures hall fuel start,
    wsLoopTrace_stopped running failures fuel start⟩

theorem C4_reconnect_backoff_witness :
    (wsLoopTrace (fun _ => true) (fun _ => AttemptFailure.connectionError "auth")
      4 0).length = 4 ∧
    ∀ p ∈ wsLoopTrace (fun _ => true)
        (fun _ => AttemptFailure.connectionError "auth") 4 0, p.2 = 10 := by
  have h := C4_reconnect_backoff (fun _ => true)
    (fun _ => AttemptFailure.connectionError "auth") 4 0
  refine ⟨h.2.2.2.2.1 (fun _ => rfl), ?_⟩
  intro p hp
  have h10 := h.2.2.2.1 p hp
  have htr : wsLoopTrace (fun _ => true)
      (fun _ => AttemptFailure.connectionError "auth") 4 0 =
      [(.connectionError "auth", 10), (.connectionError "auth", 10),
       (.connectionError "auth", 10), (.connectionError "auth", 10)] := rfl
  rw [htr] at hp
  simp only [List.mem_cons, List.not_mem_nil, or_false] at hp
  rcases hp with h1 | h1 | h1 | h1 <;> subst h1 <;> rfl
